import Mathlib

/-!
Verification of the climate_manager control-loop core: temperature
regulators (PID averaging window, hysteresis deadband), the online
debounce tracker, the window warmup state machine, the per-tick zone
and circuit control steps and the hub orchestration, each translated
from `src/custom_components/climate_manager`.

Machine reals are modelled as rationals; wall-clock instants as
rationals passed explicitly to each call.
-/

namespace ClimateManager

/-! ## PID regulator (`regulator.py`, class `PidRegulator`)

The PID transfer function itself lives in the external `simple_pid`
package; the window keeps the values it returned, so the model folds
over the recorded sample values directly.  `output` is the `_output`
list field; `autoMode` is `_pid.auto_mode` (`True` on construction). -/

structure PidState where
  autoMode : Bool
  output : List ℚ
deriving DecidableEq, Repr

/-- Fresh `PidRegulator`: `_output = []`, `auto_mode` defaults to true. -/
def pidInit : PidState := ⟨true, []⟩

/-- The `enabled` setter: equal value is a no-op, turning off clears
the sample window (`self._output.clear()`). -/
def pidSetEnabled (s : PidState) (value : Bool) : PidState :=
  if s.autoMode = value then s
  else if value then { s with autoMode := true }
  else { autoMode := false, output := [] }

/-- `PidRegulator.calculate_output`: return unchanged when not enabled,
else append the new sample and pop the oldest once the window holds
more than `avg` (`_average_samples`) values. -/
def pidCalculateOutput (avg : ℕ) (s : PidState) (sample : ℚ) : PidState :=
  if s.autoMode = false then s
  else
    let out := s.output ++ [sample]
    { s with output := if avg < out.length then out.drop 1 else out }

/-- The `output` property: 0 when disabled or the window is empty, else
the arithmetic mean of the window. -/
def pidOutput (s : PidState) : ℚ :=
  if s.autoMode = false ∨ s.output.length = 0 then 0
  else s.output.sum / s.output.length

/-- Feeding a whole sample sequence from a fresh enabled regulator. -/
def pidRun (avg : ℕ) (samples : List ℚ) : PidState :=
  samples.foldl (pidCalculateOutput avg) pidInit

/-- The last `n` elements of a list. -/
def lastN {α : Type} (n : ℕ) (l : List α) : List α :=
  l.drop (l.length - n)

/-! ## Hysteresis regulator (`regulator.py`, class `HysteresisRegulator`) -/

structure HysState where
  enabled : Bool
  target : ℚ
  output : ℚ
deriving DecidableEq, Repr

/-- Constructor (`_enabled = True`, `_output = 0`) followed by the
`initialize(target_temperature)` call that sets `_target`. -/
def hysNew (target : ℚ) : HysState := ⟨true, target, 0⟩

/-- `HysteresisRegulator.calculate_output`: unchanged when disabled;
output 0.05 once the temperature is at or below `target - 1`, 0 once it
is at or above `target + 1`, held otherwise. -/
def hysCalculateOutput (s : HysState) (cur : ℚ) : HysState :=
  if s.enabled = false then s
  else if cur ≤ s.target - 1 then { s with output := 1/20 }
  else if s.target + 1 ≤ cur then { s with output := 0 }
  else s

/-- The `output` property returns the stored value unconditionally. -/
def hysOutput (s : HysState) : ℚ := s.output

/-- The `enabled` setter stores the flag and touches nothing else. -/
def hysSetEnabled (s : HysState) (v : Bool) : HysState := { s with enabled := v }

/-- The `target_temperature` setter. -/
def hysSetTarget (s : HysState) (v : ℚ) : HysState := { s with target := v }

/-- Any one mutation of the hysteresis regulator observable from a zone:
a `calculate_output` call or one of the two setters. -/
inductive HysEvent
  | calcTemp (cur : ℚ)
  | setEnabledTo (v : Bool)
  | setTargetTo (v : ℚ)

def hysApply (s : HysState) : HysEvent → HysState
  | .calcTemp c => hysCalculateOutput s c
  | .setEnabledTo v => hysSetEnabled s v
  | .setTargetTo v => hysSetTarget s v

def hysRun (t : ℚ) (evs : List HysEvent) : HysState :=
  evs.foldl hysApply (hysNew t)

/-! ## OnlineTracker (`online_tracker.py`)

`faultOn` mirrors `_fault_entity.is_on`; `awaiter` holds the deadline
`SimpleAwaiter.target_time` (`now + wait_interval` at arming) or none.
Each call records its return value, whether the offline callback fired
and the `set_is_on` writes it performed, in call order. -/

structure TrackerState where
  faultOn : Bool
  awaiter : Option ℚ
deriving DecidableEq, Repr

structure TrackerStep where
  st : TrackerState
  ret : Bool
  cb : Bool
  writes : List Bool
deriving DecidableEq, Repr

/-- `OnlineTracker.is_online(online_raw)` evaluated at wall-clock `now`
with wait interval `w`, translated branch for branch. -/
def isOnline (w : ℚ) (s : TrackerState) (now : ℚ) (raw : Bool) : TrackerStep :=
  if raw = false then
    if s.faultOn then ⟨s, false, false, []⟩
    else
      match s.awaiter with
      | none => ⟨⟨s.faultOn, some (now + w)⟩, true, false, []⟩
      | some d =>
          if d ≤ now then ⟨⟨true, none⟩, false, true, [true]⟩
          else ⟨s, true, false, []⟩
  else ⟨⟨false, none⟩, true, false, if s.faultOn then [false] else []⟩

structure TrackerRun where
  st : TrackerState
  rets : List Bool
  cbCount : ℕ
  writes : List Bool
deriving DecidableEq, Repr

def trackerStepRun (w : ℚ) (r : TrackerRun) (c : ℚ × Bool) : TrackerRun :=
  let o := isOnline w r.st c.1 c.2
  ⟨o.st, r.rets ++ [o.ret], r.cbCount + (if o.cb then 1 else 0), r.writes ++ o.writes⟩

/-- A fresh tracker (fault indicator off, no awaiter) fed a list of
`(now, online_raw)` calls. -/
def trackerRun (w : ℚ) (calls : List (ℚ × Bool)) : TrackerRun :=
  calls.foldl (trackerStepRun w) ⟨⟨false, none⟩, [], 0, []⟩

/-! ## ZoneWindow (`window.py`)

`lastOpen` is `_last_open`, `warmupTime` is `_warmup_time`.  The
window-open reading, recomputed from the sensors on each call, is an
input `wo`; `now` is the wall clock.  `writes` records the calls to
`window_entity.set_is_on`, which happen on edges only. -/

structure WindowState where
  lastOpen : Bool
  warmupTime : Option ℚ
deriving DecidableEq, Repr

/-- `timedelta(minutes=5)` in seconds. -/
def warmupDuration : ℚ := 300

structure WindowStep where
  st : WindowState
  ret : Bool
  writes : List Bool
deriving DecidableEq, Repr

/-- `ZoneWindow.should_heat`, translated branch for branch; the return
value `not window_open and self._warmup_time is None` reads the state
after the updates of the same call. -/
def shouldHeat (s : WindowState) (now : ℚ) (wo : Bool) : WindowStep :=
  if s.lastOpen = wo then
    let elapsed : Bool :=
      match s.warmupTime with
      | some t => decide (t ≤ now)
      | none => false
    let s' : WindowState := if wo = false ∧ elapsed = true then ⟨s.lastOpen, none⟩ else s
    ⟨s', !wo && s'.warmupTime.isNone, []⟩
  else
    let s' : WindowState := ⟨wo, if wo then none else some (now + warmupDuration)⟩
    ⟨s', !wo && s'.warmupTime.isNone, [wo]⟩

structure WindowRun where
  st : WindowState
  rets : List Bool
deriving DecidableEq, Repr

def windowStepRun (r : WindowRun) (c : ℚ × Bool) : WindowRun :=
  let o := shouldHeat r.st c.1 c.2
  ⟨o.st, r.rets ++ [o.ret]⟩

def windowRun (s : WindowState) (calls : List (ℚ × Bool)) : WindowRun :=
  calls.foldl windowStepRun ⟨s, []⟩

/-! ## Zone control step (`zone.py`, `Zone.control_temperature`)

The zone owns one regulator behind the `RegulatorBase` interface; the
record below collects the operations the control step uses, and is
instantiated by both variants. -/

structure RegOps (σ : Type) where
  setEnabledOp : σ → Bool → σ
  calcOp : σ → ℚ → σ
  outOp : σ → ℚ
  isEnabledOp : σ → Bool

def pidOps (avg : ℕ) : RegOps PidState :=
  ⟨pidSetEnabled, pidCalculateOutput avg, pidOutput, fun s => s.autoMode⟩

def hysOps : RegOps HysState :=
  ⟨hysSetEnabled, hysCalculateOutput, hysOutput, fun s => s.enabled⟩

/-- Effects of one exception-free pass through the body of
`Zone.control_temperature`: the regulator state it leaves, the writes to
`output_entity` and `climate_entity.set_current_temperature`, whether
TRVs were operated and in which mode, and whether the body returned
early at the unavailable-reading guard. -/
structure ZoneBodyResult (σ : Type) where
  reg : σ
  outputWrites : List ℚ
  climateWrites : List ℚ
  trvHeat : Option Bool
  early : Bool

/-- The `try` body of `Zone.control_temperature`: `enablers` is the
conjunction `_recalculate_regulator_enabled` computes from HVAC mode,
sensor fault and window state; `windowOk` is the second
`should_heat()` reading of the TRV guard; `hasTrvs` whether `_trvs` is
nonempty. -/
def zoneBody {σ : Type} (R : RegOps σ) (reg : σ) (curTemp : Option ℚ)
    (enablers hasTrvs windowOk : Bool) : ZoneBodyResult σ :=
  let reg1 := R.setEnabledOp reg enablers
  if R.isEnabledOp reg1 then
    match curTemp with
    | none => ⟨reg1, [], [], none, true⟩
    | some t =>
      let reg2 := R.calcOp reg1 t
      let out := R.outOp reg2
      ⟨reg2, [out], [t],
        if hasTrvs && windowOk then some (decide (0 < out)) else none, false⟩
  else
    let out := R.outOp reg1
    ⟨reg1, [out], [], none, false⟩

/-! ## Sticky fault boundary (`Zone.control_temperature` lines 134-172 and
`Hub._async_control_heating` lines 124-147)

Both wrap their body in the same pattern: a completed body clears the
control-fault indicator when it was on; a raised exception is swallowed
and sets the indicator when it was off.  `raises` abstracts an exception
anywhere inside the body; the pair returned is the indicator after the
tick and the `set_is_on` writes the boundary performed. -/

def stickyFaultTick (raises : Bool) (faultOn : Bool) : Bool × List Bool :=
  if raises then
    if faultOn then (true, []) else (true, [true])
  else
    if faultOn then (false, [false]) else (false, [])

structure FaultRun where
  faultOn : Bool
  writes : List Bool
deriving DecidableEq, Repr

def faultRunStep (r : FaultRun) (raises : Bool) : FaultRun :=
  ⟨(stickyFaultTick raises r.faultOn).1,
    r.writes ++ (stickyFaultTick raises r.faultOn).2⟩

def faultRun (ticks : List Bool) : FaultRun :=
  ticks.foldl faultRunStep ⟨false, []⟩

/-- The writes a sequence of tick outcomes should produce if the
indicator is written exactly on status changes. -/
def transitionWrites (prev : Bool) : List Bool → List Bool
  | [] => []
  | t :: r => (if t = prev then [] else [t]) ++ transitionWrites t r

/-! ## Circuit aggregation (`circuit.py`, `Circuit.control_circuit`)

Each owned zone contributes the values the loop body reads:
`zone.current_temperature`, `zone.climate_entity.target_temperature`,
`.hvac_mode` (a string enumeration, so truthiness is non-emptiness),
`.preset_mode` and `zone.regulator_output`. -/

structure ZoneAgg where
  cur : Option ℚ
  target : Option ℚ
  mode : Option String
  preset : Option String
  out : ℚ
deriving DecidableEq, Repr

/-- One iteration of the current-temperature accumulation:
`if zone.current_temperature:` then
`min(cur_temp, reading) if cur_temp else reading` — both tests are
Python truthiness, so a reading of 0 is skipped. -/
def stepCur (acc : Option ℚ) (r : Option ℚ) : Option ℚ :=
  match r with
  | none => acc
  | some rv =>
    if rv = 0 then acc
    else
      match acc with
      | none => some rv
      | some a => if a = 0 then some rv else some (min a rv)

def circuitCur (zones : List ZoneAgg) : Option ℚ :=
  zones.foldl (fun a z => stepCur a z.cur) none

/-- The target temperatures collected into `target_temps` (only truthy
values pass the `if`). -/
def collectedTargets (zones : List ZoneAgg) : List ℚ :=
  zones.filterMap fun z =>
    match z.target with
    | some t => if t = 0 then none else some t
    | none => none

def collectedModes (zones : List ZoneAgg) : List String :=
  zones.filterMap fun z =>
    match z.mode with
    | some m => if m = "" then none else some m
    | none => none

def collectedPresets (zones : List ZoneAgg) : List String :=
  zones.filterMap fun z =>
    match z.preset with
    | some p => if p = "" then none else some p
    | none => none

/-- `values.pop() if len(values) == 1 else None` on a Python set,
modelled through deduplication. -/
def sharedOf {α : Type} [DecidableEq α] (l : List α) : Option α :=
  match l.dedup with
  | [a] => some a
  | _ => none

structure CircuitResult where
  cur : Option ℚ
  target : Option ℚ
  mode : Option String
  preset : Option String
  active : Bool
  switchCmds : List (String × Bool)
deriving DecidableEq, Repr

/-- `Circuit.control_circuit` followed by `Circuit.set_active`: the
aggregate climate values written, the active flag, and the switch
service calls (`true` = `turn_on`). -/
def controlCircuit (zones : List ZoneAgg) (switches : List String) :
    CircuitResult :=
  let active := zones.any fun z => decide (0 < z.out)
  ⟨circuitCur zones,
    sharedOf (collectedTargets zones),
    sharedOf (collectedModes zones),
    sharedOf (collectedPresets zones),
    active,
    switches.map fun sw => (sw, active)⟩

/-- The per-zone readings that survive the truthiness test. -/
def truthyCurs (zones : List ZoneAgg) : List ℚ :=
  zones.filterMap fun z =>
    match z.cur with
    | some v => if v = 0 then none else some v
    | none => none

def minStep (a : Option ℚ) (x : ℚ) : Option ℚ :=
  match a with
  | none => some x
  | some v => some (min v x)

def maxStep (a : Option ℚ) (x : ℚ) : Option ℚ :=
  match a with
  | none => some x
  | some v => some (max v x)

/-- Minimum of a list of rationals, none for the empty list. -/
def listMin (l : List ℚ) : Option ℚ := l.foldl minStep none

/-- Maximum of a list of rationals, none for the empty list. -/
def listMax (l : List ℚ) : Option ℚ := l.foldl maxStep none

/-- The claim's reading of the displayed current temperature, stated
from the spec words: the minimum of the zones' current readings,
ignoring only zones with no reading at all. -/
def claimedCircuitCur (zones : List ZoneAgg) : Option ℚ :=
  listMin (zones.filterMap fun z => z.cur)

/-- The claim's reading of the aggregate target, stated from the spec
words: the single shared value when all zones agree, unset otherwise. -/
def claimedTarget (zones : List ZoneAgg) : Option ℚ :=
  match zones with
  | [] => none
  | z :: rest =>
      if rest.all fun y => decide (y.target = z.target) then z.target else none

/-! ## Hub tick (`hub.py`, `Hub._async_control_heating`)

The model keeps the order of the side effects as a trace: zone control
steps in zone order, then circuit aggregation steps, then the write of
the aggregate output.  `zoneOuts` lists `zone.regulator_output` as read
right after each zone's own step, in the same order the loop reads
them; the boiler gate reuses the `OnlineTracker` model. -/

inductive HubEvent
  | zoneStep (i : ℕ)
  | circuitStep (j : ℕ)
  | publishOutput (v : ℚ)
deriving DecidableEq, Repr

structure HubTickResult where
  events : List HubEvent
  skipped : Bool
deriving DecidableEq, Repr

/-- `output = 0.0` then `output = max(output, zone.regulator_output)`
over the zones in order. -/
def hubMaxOutput (outs : List ℚ) : ℚ := outs.foldl max 0

/-- One invocation of `Hub._async_control_heating` on its success path
(the sticky fault boundary around the body is `stickyFaultTick`):
the boiler gate runs first and skips everything when the tracker
answers offline; the tracker state after the call is returned too. -/
def hubTick (boilerCfg : Bool) (w : ℚ) (tr : TrackerState) (now : ℚ)
    (boilerRaw : Bool) (zoneOuts : List ℚ) (nCircuits : ℕ) :
    HubTickResult × TrackerState :=
  let body : HubTickResult :=
    ⟨((List.range zoneOuts.length).map HubEvent.zoneStep)
      ++ ((List.range nCircuits).map HubEvent.circuitStep)
      ++ [HubEvent.publishOutput (hubMaxOutput zoneOuts)], false⟩
  if boilerCfg then
    let o := isOnline w tr now boilerRaw
    if o.ret = false then (⟨[], true⟩, o.st) else (body, o.st)
  else (body, tr)

/-! ## Helper lemmas -/

theorem lastN_length_le {α : Type} (n : ℕ) (l : List α) :
    (lastN n l).length ≤ n := by
  simp only [lastN, List.length_drop]
  omega

theorem lastN_nil {α : Type} (n : ℕ) : lastN n ([] : List α) = [] := by
  simp [lastN]

theorem lastN_of_length_le {α : Type} {n : ℕ} {l : List α}
    (h : l.length ≤ n) : lastN n l = l := by
  simp only [lastN]
  have : l.length - n = 0 := by omega
  simp [this]

/-- Re-windowing an already windowed list agrees with windowing the whole. -/
theorem lastN_append_lastN {α : Type} (n : ℕ) (a b : List α) :
    lastN n (lastN n a ++ b) = lastN n (a ++ b) := by
  by_cases h : a.length ≤ n
  · rw [lastN_of_length_le h]
  · simp only [lastN, List.length_append, List.length_drop,
      List.drop_append_eq_append_drop, List.drop_drop]
    congr 2 <;> omega

theorem pidCalculateOutput_window (avg : ℕ) (w : List ℚ) (x : ℚ)
    (h : w.length ≤ avg) :
    pidCalculateOutput avg ⟨true, w⟩ x = ⟨true, lastN avg (w ++ [x])⟩ := by
  simp only [pidCalculateOutput, lastN, List.length_append, List.length_cons,
    List.length_nil, reduceIte]
  by_cases hl : avg < w.length + 1
  · have hw : w.length = avg := by omega
    simp [hl, hw]
  · have h0 : w.length + 1 - avg = 0 := by omega
    simp [hl, h0]

/-- Invariant of the sample window: folding the per-sample step from an
enabled state whose window already respects the bound leaves exactly
the last `avg` of all values seen. -/
theorem pidFold_window (avg : ℕ) (samples : List ℚ) :
    ∀ w : List ℚ, w.length ≤ avg →
      samples.foldl (pidCalculateOutput avg) ⟨true, w⟩ =
        ⟨true, lastN avg (w ++ samples)⟩ := by
  induction samples with
  | nil => intro w h; simp [lastN_of_length_le h]
  | cons x xs ih =>
    intro w h
    rw [List.foldl_cons, pidCalculateOutput_window avg w x h,
      ih _ (lastN_length_le avg _), lastN_append_lastN]
    simp

theorem pidRun_window (avg : ℕ) (samples : List ℚ) :
    pidRun avg samples = ⟨true, lastN avg samples⟩ := by
  have := pidFold_window avg samples [] (by simp)
  simpa [pidRun, pidInit] using this

theorem hysOutput_mem (evs : List HysEvent) :
    ∀ s : HysState, s.output = 0 ∨ s.output = 1/20 →
      (evs.foldl hysApply s).output = 0 ∨
        (evs.foldl hysApply s).output = 1/20 := by
  induction evs with
  | nil => intro s h; simpa using h
  | cons e es ih =>
    intro s h
    rw [List.foldl_cons]
    refine ih _ ?_
    cases e with
    | calcTemp c =>
      simp only [hysApply, hysCalculateOutput]
      by_cases h1 : s.enabled = false
      · simpa [h1] using h
      · by_cases h2 : c ≤ s.target - 1
        · simp [h1, h2]
        · by_cases h3 : s.target + 1 ≤ c
          · simp [h1, h2, h3]
          · simpa [h1, h2, h3] using h
    | setEnabledTo v => simpa [hysApply, hysSetEnabled] using h
    | setTargetTo v => simpa [hysApply, hysSetTarget] using h

/-- While the awaiter is armed and every call stays offline before the
deadline, nothing changes and every call answers online. -/
theorem trackerGraceFold (w d : ℚ) (ts : List ℚ) :
    ∀ r : TrackerRun, r.st = ⟨false, some d⟩ → (∀ t ∈ ts, t < d) →
      (ts.map (fun t => (t, false))).foldl (trackerStepRun w) r =
        ⟨⟨false, some d⟩, r.rets ++ List.replicate ts.length true,
          r.cbCount, r.writes⟩ := by
  induction ts with
  | nil => intro r hr _; simp [← hr]
  | cons t ts ih =>
    intro r hr h
    have ht : ¬ d ≤ t := not_le.mpr (h t (by simp))
    rw [List.map_cons, List.foldl_cons]
    rw [ih _ (by simp [trackerStepRun, hr, isOnline, ht])
      (fun x hx => h x (by simp [hx]))]
    simp [trackerStepRun, hr, isOnline, ht, List.replicate_succ]

/-- Once the fault indicator is set, further offline calls answer
offline and write nothing. -/
theorem trackerFaultFold (w : ℚ) (ts : List ℚ) :
    ∀ r : TrackerRun, r.st.faultOn = true →
      (ts.map (fun t => (t, false))).foldl (trackerStepRun w) r =
        ⟨r.st, r.rets ++ List.replicate ts.length false,
          r.cbCount, r.writes⟩ := by
  induction ts with
  | nil => intro r _; simp
  | cons t ts ih =>
    intro r hr
    rw [List.map_cons, List.foldl_cons]
    rw [ih _ (by simp [trackerStepRun, isOnline, hr])]
    simp [trackerStepRun, isOnline, hr, List.replicate_succ]

/-- While the window stays closed and the armed warmup deadline has not
passed, every call answers false and the state is unchanged. -/
theorem windowWarmupFold (d : ℚ) (ts : List ℚ) :
    ∀ r : WindowRun, r.st = ⟨false, some d⟩ → (∀ t ∈ ts, t < d) →
      (ts.map (fun t => (t, false))).foldl windowStepRun r =
        ⟨⟨false, some d⟩, r.rets ++ List.replicate ts.length false⟩ := by
  induction ts with
  | nil => intro r hr _; simp [← hr]
  | cons t ts ih =>
    intro r hr h
    have ht : ¬ d ≤ t := not_le.mpr (h t (by simp))
    rw [List.map_cons, List.foldl_cons]
    rw [ih _ (by simp [windowStepRun, hr, shouldHeat, ht])
      (fun x hx => h x (by simp [hx]))]
    simp [windowStepRun, hr, shouldHeat, ht, List.replicate_succ]

theorem faultFold_writes (ticks : List Bool) :
    ∀ r : FaultRun,
      (ticks.foldl faultRunStep r) =
        ⟨ticks.getLastD r.faultOn,
          r.writes ++ transitionWrites r.faultOn ticks⟩ := by
  induction ticks with
  | nil => intro r; simp [transitionWrites]
  | cons t ts ih =>
    intro r
    rw [List.foldl_cons, ih]
    have hst : (faultRunStep r t).faultOn = t := by
      simp [faultRunStep, stickyFaultTick]
      by_cases h : r.faultOn <;> by_cases h2 : t <;> simp_all
    rw [hst]
    have hw : (faultRunStep r t).writes =
        r.writes ++ (if t = r.faultOn then [] else [t]) := by
      simp [faultRunStep, stickyFaultTick]
      by_cases h : r.faultOn <;> by_cases h2 : t <;> simp_all
    rw [hw]
    cases ts with
    | nil => simp [transitionWrites]
    | cons a b => simp [transitionWrites, List.getLastD]

theorem circuitCur_foldInv (zones : List ZoneAgg) :
    ∀ acc : Option ℚ, (∀ a, acc = some a → a ≠ 0) →
      zones.foldl (fun a z => stepCur a z.cur) acc =
        (truthyCurs zones).foldl minStep acc := by
  induction zones with
  | nil => intro acc _; simp [truthyCurs]
  | cons z zs ih =>
    intro acc hacc
    rw [List.foldl_cons]
    cases hz : z.cur with
    | none =>
      have h1 : stepCur acc none = acc := rfl
      rw [h1, ih _ hacc]
      simp [truthyCurs, hz]
    | some rv =>
      by_cases hrv : rv = 0
      · subst hrv
        have h1 : stepCur acc (some 0) = acc := by simp [stepCur]
        rw [h1, ih _ hacc]
        simp [truthyCurs, hz]
      · have htr : truthyCurs (z :: zs) = rv :: truthyCurs zs := by
          simp [truthyCurs, hz, hrv]
        rw [htr, List.foldl_cons]
        cases acc with
        | none =>
          have h1 : stepCur none (some rv) = some rv := by simp [stepCur, hrv]
          have h2 : minStep none rv = some rv := rfl
          rw [h1, h2, ih _ (by intro a ha; simp at ha; rw [← ha]; exact hrv)]
        | some a =>
          have ha : a ≠ 0 := hacc a rfl
          have h1 : stepCur (some a) (some rv) = some (min a rv) := by
            simp [stepCur, hrv, ha]
          have h2 : minStep (some a) rv = some (min a rv) := rfl
          rw [h1, h2]
          refine ih _ ?_
          intro b hb
          simp at hb
          rcases min_cases a rv with ⟨he, _⟩ | ⟨he, _⟩ <;> rw [← hb, he] <;>
            assumption

theorem circuitCur_eq_listMin (zones : List ZoneAgg) :
    circuitCur zones = listMin (truthyCurs zones) := by
  unfold circuitCur listMin
  exact circuitCur_foldInv zones none (by simp)

theorem sharedOf_eq_some {α : Type} [DecidableEq α] (l : List α) (a : α) :
    sharedOf l = some a ↔ (a ∈ l ∧ ∀ b ∈ l, b = a) := by
  unfold sharedOf
  constructor
  · intro h
    cases hd : l.dedup with
    | nil => rw [hd] at h; simp at h
    | cons x xs =>
      cases xs with
      | nil =>
        rw [hd] at h
        simp at h
        subst h
        refine ⟨List.mem_dedup.mp (by rw [hd]; simp), ?_⟩
        intro b hb
        have hbd : b ∈ l.dedup := List.mem_dedup.mpr hb
        rw [hd] at hbd
        simpa using hbd
      | cons y ys => rw [hd] at h; simp at h
  · rintro ⟨hmem, hall⟩
    have h1 : a ∈ l.dedup := List.mem_dedup.mpr hmem
    have h2 : ∀ b ∈ l.dedup, b = a := fun b hb => hall b (List.mem_dedup.mp hb)
    have h3 := l.nodup_dedup
    cases hdd : l.dedup with
    | nil => rw [hdd] at h1; simp at h1
    | cons x xs =>
      have hx : x = a := h2 x (by rw [hdd]; simp)
      cases xs with
      | nil => simp [hx]
      | cons y ys =>
        exfalso
        have hy : y = a := h2 y (by rw [hdd]; simp)
        rw [hdd] at h3
        rw [List.nodup_cons] at h3
        exact h3.1 (by rw [hx, ← hy]; simp)

theorem hubMaxOutput_spec (outs : List ℚ) :
    0 ≤ hubMaxOutput outs ∧ (∀ x ∈ outs, x ≤ hubMaxOutput outs) ∧
      (hubMaxOutput outs = 0 ∨ hubMaxOutput outs ∈ outs) := by
  unfold hubMaxOutput
  suffices h : ∀ a : ℚ, a ≤ outs.foldl max a ∧
      (∀ x ∈ outs, x ≤ outs.foldl max a) ∧
      (outs.foldl max a = a ∨ outs.foldl max a ∈ outs) by
    obtain ⟨h1, h2, h3⟩ := h 0
    exact ⟨h1, h2, h3⟩
  induction outs with
  | nil => intro a; simp
  | cons x xs ih =>
    intro a
    rw [List.foldl_cons]
    obtain ⟨h1, h2, h3⟩ := ih (max a x)
    refine ⟨le_trans (le_max_left a x) h1, ?_, ?_⟩
    · intro y hy
      rcases List.mem_cons.mp hy with hy | hy
      · rw [hy]; exact le_trans (le_max_right a x) h1
      · exact h2 y hy
    · rcases h3 with h3 | h3
      · rcases max_cases a x with ⟨he, _⟩ | ⟨he, _⟩
        · left; rw [h3, he]
        · right; rw [h3, he]; simp
      · right; exact List.mem_cons_of_mem x h3

/-! ## The claims -/

/-- C1: for every sequence of samples recorded through
`PidRegulator.calculate_output` while enabled, the window holds exactly
the last `avg` (`_average_samples`, default 20) recorded values with
the oldest evicted first, the `output` getter returns their arithmetic
mean (0 for the empty window), and disabling then re-enabling clears
the window so `output` is 0 before any new sample. -/
theorem c1_pid_output_is_window_mean (avg : ℕ) (samples : List ℚ) :
    (pidRun avg samples).output = lastN avg samples ∧
    (pidRun avg samples).output.length ≤ avg ∧
    pidOutput (pidRun avg samples) =
      (if (lastN avg samples).length = 0 then 0
        else (lastN avg samples).sum / (lastN avg samples).length) ∧
    pidOutput (pidSetEnabled (pidSetEnabled (pidRun avg samples) false) true)
      = 0 := by
  rw [pidRun_window]
  refine ⟨rfl, lastN_length_le avg samples, ?_, ?_⟩
  · by_cases h : (lastN avg samples).length = 0 <;> simp [pidOutput, h]
  · rcases hl : lastN avg samples with _ | ⟨x, xs⟩
    · simp [pidSetEnabled, pidOutput]
    · simp [pidSetEnabled, pidOutput]

/-- C2: a `HysteresisRegulator.calculate_output` call moves the output
to 0.05 only when the temperature is at or below target minus one and
to 0 only when at or above target plus one, holds it strictly inside
the deadband, and over every event sequence from a fresh regulator the
output only ever takes the values 0 and 0.05. -/
theorem c2_hysteresis_transitions (s : HysState) (cur t : ℚ)
    (evs : List HysEvent) :
    ((hysCalculateOutput s cur).output = 1/20 → s.output ≠ 1/20 →
      cur ≤ s.target - 1) ∧
    ((hysCalculateOutput s cur).output = 0 → s.output ≠ 0 →
      s.target + 1 ≤ cur) ∧
    (s.target - 1 < cur → cur < s.target + 1 →
      (hysCalculateOutput s cur).output = s.output) ∧
    ((hysRun t evs).output = 0 ∨ (hysRun t evs).output = 1/20) := by
  refine ⟨?_, ?_, ?_, hysOutput_mem evs (hysNew t) (Or.inl rfl)⟩
  · intro h1 h2
    unfold hysCalculateOutput at h1
    by_cases he : s.enabled = false
    · simp [he] at h1 h2; exact absurd h1 h2
    · by_cases hlo : cur ≤ s.target - 1
      · exact hlo
      · by_cases hhi : s.target + 1 ≤ cur
        · simp [he, hlo, hhi] at h1
        · simp [he, hlo, hhi] at h1 h2; exact absurd h1 h2
  · intro h1 h2
    unfold hysCalculateOutput at h1
    by_cases he : s.enabled = false
    · simp [he] at h1; exact absurd h1 h2
    · by_cases hlo : cur ≤ s.target - 1
      · simp [he, hlo] at h1
      · by_cases hhi : s.target + 1 ≤ cur
        · exact hhi
        · simp [he, hlo, hhi] at h1; exact absurd h1 h2
  · intro h1 h2
    have hlo : ¬ cur ≤ s.target - 1 := by linarith
    have hhi : ¬ s.target + 1 ≤ cur := by linarith
    by_cases he : s.enabled = false <;> simp [hysCalculateOutput, he, hlo, hhi]

/-- C3 counterexample: a hysteresis regulator that last computed 0.05
and is then disabled still reports 0.05 from its `output` getter, not
0 as the claim requires of every variant. -/
theorem c3_cex_disabled_hysteresis_output :
    (hysSetEnabled (hysCalculateOutput (hysNew 20) 19) false).enabled
        = false ∧
    hysOutput (hysSetEnabled (hysCalculateOutput (hysNew 20) 19) false)
        = 1/20 ∧
    (1/20 : ℚ) ≠ 0 := by
  refine ⟨rfl, ?_, by norm_num⟩
  norm_num [hysNew, hysCalculateOutput, hysSetEnabled, hysOutput]

/-- C3 amended: `calculate_output` is a no-op when disabled for both
variants, and the PID `output` getter returns 0 when disabled or when
the window is empty; the hysteresis `output` getter returns 0 before
any sample was ever recorded, but keeps its last computed value when
the regulator is disabled instead of resetting to 0. -/
theorem c3_amended_disabled_behavior (avg : ℕ) (s : PidState) (x : ℚ)
    (h : HysState) (c t : ℚ) :
    (s.autoMode = false → pidCalculateOutput avg s x = s) ∧
    (s.autoMode = false → pidOutput s = 0) ∧
    (s.output = [] → pidOutput s = 0) ∧
    (h.enabled = false → hysCalculateOutput h c = h) ∧
    hysOutput (hysNew t) = 0 ∧
    hysOutput (hysSetEnabled h false) = hysOutput h := by
  refine ⟨?_, ?_, ?_, ?_, rfl, rfl⟩
  · intro ha; simp [pidCalculateOutput, ha]
  · intro ha; simp [pidOutput, ha]
  · intro ho; simp [pidOutput, ho]
  · intro he; simp [hysCalculateOutput, he]

/-- C4: from a fresh tracker with wait interval `w`, a run that stays
offline only at instants before the armed deadline and then comes back
answers online on every call, never writes the fault indicator and
never fires the callback; a run that stays offline up to an instant at
or past the deadline answers online through the grace calls, then
offline from the expiring call on, fires the offline callback exactly
once, and over the whole run writes the indicator exactly on the two
transitions: true at fault onset, false at the first online call. -/
theorem c4_online_tracker_debounce (w t0 t1 te t2 : ℚ) (ts ts2 : List ℚ)
    (hts : ∀ t ∈ ts, t < t0 + w) (hte : t0 + w ≤ te) :
    trackerRun w ((t0, false) :: (ts.map (fun t => (t, false)) ++ [(t1, true)]))
      = ⟨⟨false, none⟩, List.replicate (ts.length + 1) true ++ [true], 0, []⟩ ∧
    trackerRun w ((t0, false) :: (ts.map (fun t => (t, false))
        ++ ((te, false) :: (ts2.map (fun t => (t, false)) ++ [(t2, true)]))))
      = ⟨⟨false, none⟩,
          List.replicate (ts.length + 1) true
            ++ List.replicate (ts2.length + 1) false ++ [true],
          1, [true, false]⟩ := by
  have harm : trackerStepRun w ⟨⟨false, none⟩, [], 0, []⟩ (t0, false)
      = ⟨⟨false, some (t0 + w)⟩, [true], 0, []⟩ := by
    simp [trackerStepRun, isOnline]
  constructor
  · unfold trackerRun
    rw [List.foldl_cons, harm, List.foldl_append,
      trackerGraceFold w (t0 + w) ts _ rfl hts]
    simp [trackerStepRun, isOnline, List.replicate_succ]
  · unfold trackerRun
    rw [List.foldl_cons, harm, List.foldl_append,
      trackerGraceFold w (t0 + w) ts _ rfl hts]
    rw [List.foldl_cons,
      show trackerStepRun w
          ⟨⟨false, some (t0 + w)⟩, [true] ++ List.replicate ts.length true,
            0, []⟩ (te, false)
        = ⟨⟨true, none⟩, ([true] ++ List.replicate ts.length true) ++ [false],
            1, [true]⟩ by simp [trackerStepRun, isOnline, hte],
      List.foldl_append, trackerFaultFold w ts2 _ rfl]
    simp [trackerStepRun, isOnline, List.replicate_succ]

/-- C4 witness: `w = 5`, offline at 0, 1, 2 then online at 3 stays
online with no writes; offline at 0, 1, 2, expiring at 6, still
offline at 7, online at 8 writes the indicator exactly twice. -/
theorem c4_online_tracker_debounce_witness :
    trackerRun 5 ((0, false) :: ([(1 : ℚ), 2].map (fun t => (t, false))
        ++ [(3, true)]))
      = ⟨⟨false, none⟩, List.replicate 3 true ++ [true], 0, []⟩ ∧
    trackerRun 5 ((0, false) :: ([(1 : ℚ), 2].map (fun t => (t, false))
        ++ ((6, false) :: ([(7 : ℚ)].map (fun t => (t, false)) ++ [(8, true)]))))
      = ⟨⟨false, none⟩,
          List.replicate 3 true ++ List.replicate 2 false ++ [true],
          1, [true, false]⟩ :=
  c4_online_tracker_debounce 5 0 3 6 8 [1, 2] [7]
    (by intro t ht; fin_cases ht <;> norm_num) (by norm_num)

/-- C5: `should_heat` answers true exactly when the window reads closed
and no warmup deadline is pending after the update of the same call; an
open-to-closed edge arms the deadline five minutes ahead and writes the
window indicator; while closed, a pending deadline not yet reached
leaves the state alone and answers false, and the first call at or past
it clears the deadline and answers true; a closed-to-open edge disarms
any pending deadline, so a later closing arms a fresh full five-minute
wait; consequently a closing followed by closed calls before the
deadline and one at or past it answers false until the warmup elapses
and then true. -/
theorem c5_window_warmup (s : WindowState) (now d tc t2 : ℚ) (wo : Bool)
    (ts : List ℚ) (hts : ∀ t ∈ ts, t < tc + warmupDuration)
    (ht2 : tc + warmupDuration ≤ t2) :
    ((shouldHeat s now wo).ret = true ↔
      wo = false ∧ (shouldHeat s now wo).st.warmupTime = none) ∧
    (s.lastOpen = true → shouldHeat s now false
      = ⟨⟨false, some (now + warmupDuration)⟩, false, [false]⟩) ∧
    (s.lastOpen = false → s.warmupTime = some d → now < d →
      shouldHeat s now false = ⟨s, false, []⟩) ∧
    (s.lastOpen = false → s.warmupTime = some d → d ≤ now →
      shouldHeat s now false = ⟨⟨false, none⟩, true, []⟩) ∧
    (s.lastOpen = false → shouldHeat s now true = ⟨⟨true, none⟩, false, [true]⟩) ∧
    (s.lastOpen = true →
      windowRun s
          ((tc, false) :: (ts.map (fun t => (t, false)) ++ [(t2, false)]))
        = ⟨⟨false, none⟩, List.replicate (ts.length + 1) false ++ [true]⟩) := by
  refine ⟨?_, ?_, ?_, ?_, ?_, ?_⟩
  · unfold shouldHeat
    by_cases h : s.lastOpen = wo <;>
      simp [h, Bool.and_eq_true, Option.isNone_iff_eq_none]
  · intro h
    have hne : ¬ s.lastOpen = false := by simp [h]
    simp [shouldHeat, hne]
  · intro h hw hnow
    have hlt : ¬ d ≤ now := not_le.mpr hnow
    simp [shouldHeat, h, hw, hlt]
  · intro h hw hnow
    simp [shouldHeat, h, hw, hnow]
  · intro h
    have hne : ¬ s.lastOpen = true := by simp [h]
    simp [shouldHeat, hne]
  · intro h
    have hne : ¬ s.lastOpen = false := by simp [h]
    unfold windowRun
    rw [List.foldl_cons,
      show windowStepRun ⟨s, []⟩ (tc, false)
          = ⟨⟨false, some (tc + warmupDuration)⟩, [false]⟩ by
        simp [windowStepRun, shouldHeat, hne],
      List.foldl_append,
      windowWarmupFold (tc + warmupDuration) ts _ rfl hts]
    simp [windowStepRun, shouldHeat, ht2, List.replicate_succ]

/-- C5 witness: window closes at time 0, stays closed at 100 and 200
(still inside the 300 s warmup, answering false), and answers true at
301. -/
theorem c5_window_warmup_witness :
    windowRun ⟨true, none⟩
        ((0, false) :: ([(100 : ℚ), 200].map (fun t => (t, false))
          ++ [(301, false)]))
      = ⟨⟨false, none⟩, List.replicate 3 false ++ [true]⟩ :=
  (c5_window_warmup ⟨true, none⟩ 0 0 0 301 false [100, 200]
    (by intro t ht; fin_cases ht <;> norm_num [warmupDuration])
    (by norm_num [warmupDuration])).2.2.2.2.2 rfl

/-- C6 counterexample: with the regulator enabled and the current
reading unavailable, the zone control step returns early and writes
nothing to the output display sensor, against the claim that the
output is published on such ticks too. -/
theorem c6_cex_enabled_unavailable_skips_publish :
    (zoneBody (pidOps 20) pidInit none true false true).outputWrites = [] ∧
    (zoneBody (pidOps 20) pidInit none true false true).early = true ∧
    (pidOps 20).isEnabledOp ((pidOps 20).setEnabledOp pidInit true) = true :=
  ⟨rfl, rfl, rfl⟩

/-- C6 amended: an exception-free zone control step publishes the
regulator output as left by the step to the output display sensor,
except when the regulator is enabled and the reading is unavailable:
then the body returns early and publishes nothing. -/
theorem c6_amended_output_publish {σ : Type} (R : RegOps σ) (reg : σ)
    (cur : Option ℚ) (e ht wk : Bool) :
    (¬(R.isEnabledOp (R.setEnabledOp reg e) = true ∧ cur = none) →
      (zoneBody R reg cur e ht wk).outputWrites
          = [R.outOp (zoneBody R reg cur e ht wk).reg] ∧
        (zoneBody R reg cur e ht wk).early = false) ∧
    (R.isEnabledOp (R.setEnabledOp reg e) = true ∧ cur = none →
      (zoneBody R reg cur e ht wk).outputWrites = [] ∧
        (zoneBody R reg cur e ht wk).early = true) := by
  constructor
  · intro hn
    unfold zoneBody
    by_cases hen : R.isEnabledOp (R.setEnabledOp reg e) = true
    · cases cur with
      | none => exact absurd ⟨hen, rfl⟩ hn
      | some v => simp [hen]
    · simp [hen]
  · rintro ⟨hen, hcur⟩
    subst hcur
    simp [zoneBody, hen]

/-- C7 counterexample: a zone reading exactly 0 and a zone with no
target break the claim: the code skips the 0 reading (minimum 21, not
0 as the claim states) and reports the single truthy target 20 where
the claim requires unset because the zones do not agree. -/
theorem c7_cex_aggregation_truthiness :
    (controlCircuit [⟨some 0, none, some "heat", none, 0⟩,
        ⟨some 21, some 20, none, some "home", 0⟩] []).cur = some 21 ∧
    claimedCircuitCur [⟨some 0, none, some "heat", none, 0⟩,
        ⟨some 21, some 20, none, some "home", 0⟩] = some 0 ∧
    (controlCircuit [⟨some 0, none, some "heat", none, 0⟩,
        ⟨some 21, some 20, none, some "home", 0⟩] []).target = some 20 ∧
    claimedTarget [⟨some 0, none, some "heat", none, 0⟩,
        ⟨some 21, some 20, none, some "home", 0⟩] = none := by
  refine ⟨?_, ?_, ?_, ?_⟩ <;> decide

/-- C7 amended: per tick the displayed current temperature is the
minimum over the readings that are present and nonzero (Python
truthiness), unset when there is none; target, HVAC mode and preset
each display the value that is among the truthy values the zones report
exactly when every truthy reported value equals it; the circuit is
active exactly when some owned zone's regulator output is positive, and
every configured switch is commanded on exactly when the circuit is
active and off exactly when it is not. -/
theorem c7_amended_circuit_aggregation (zones : List ZoneAgg)
    (switches : List String) (v : ℚ) (m p sw : String) :
    (controlCircuit zones switches).cur = listMin (truthyCurs zones) ∧
    ((controlCircuit zones switches).target = some v ↔
      v ∈ collectedTargets zones ∧ ∀ u ∈ collectedTargets zones, u = v) ∧
    ((controlCircuit zones switches).mode = some m ↔
      m ∈ collectedModes zones ∧ ∀ u ∈ collectedModes zones, u = m) ∧
    ((controlCircuit zones switches).preset = some p ↔
      p ∈ collectedPresets zones ∧ ∀ u ∈ collectedPresets zones, u = p) ∧
    ((controlCircuit zones switches).active = true ↔ ∃ z ∈ zones, 0 < z.out) ∧
    ((sw, true) ∈ (controlCircuit zones switches).switchCmds ↔
      sw ∈ switches ∧ (controlCircuit zones switches).active = true) ∧
    ((sw, false) ∈ (controlCircuit zones switches).switchCmds ↔
      sw ∈ switches ∧ (controlCircuit zones switches).active = false) := by
  refine ⟨circuitCur_eq_listMin zones, sharedOf_eq_some _ v,
    sharedOf_eq_some _ m, sharedOf_eq_some _ p, ?_, ?_, ?_⟩
  · simp [controlCircuit, List.any_eq_true]
  · simp only [controlCircuit, List.mem_map]
    constructor
    · rintro ⟨x, hx, heq⟩
      obtain ⟨h1, h2⟩ := Prod.mk.injEq .. ▸ heq
      exact ⟨h1 ▸ hx, h2⟩
    · rintro ⟨hsw, hact⟩
      exact ⟨sw, hsw, by rw [hact]⟩
  · simp only [controlCircuit, List.mem_map]
    constructor
    · rintro ⟨x, hx, heq⟩
      obtain ⟨h1, h2⟩ := Prod.mk.injEq .. ▸ heq
      exact ⟨h1 ▸ hx, h2⟩
    · rintro ⟨hsw, hact⟩
      exact ⟨sw, hsw, by rw [hact]⟩

/-- C8 counterexample: a zone whose PID window holds the single sample
-1/2 has regulator output -1/2, the maximum over the zone outputs is
-1/2, yet the hub publishes 0 because its fold starts at 0. -/
theorem c8_cex_negative_output_not_max :
    pidOutput ⟨true, [-(1/2)]⟩ = -(1/2) ∧
    listMax [pidOutput ⟨true, [-(1/2)]⟩] = some (-(1/2)) ∧
    (hubTick false 20 ⟨false, none⟩ 0 true
        [pidOutput ⟨true, [-(1/2)]⟩] 0).1.events
      = [HubEvent.zoneStep 0, HubEvent.publishOutput 0] := by
  refine ⟨by norm_num [pidOutput], by norm_num [listMax, maxStep, pidOutput], ?_⟩
  norm_num [hubTick, hubMaxOutput, pidOutput, List.range_succ]

/-- C8 amended: when a boiler status sensor is configured and the
tracker answers offline the tick does nothing at all; otherwise the
tick runs every zone control step, then every circuit aggregation step,
and publishes the fold of max over the zone outputs started at 0 — the
zones' maximum whenever some output is nonnegative, and 0 when there is
no zone or every output is negative. -/
theorem c8_amended_hub_tick (bc : Bool) (w : ℚ) (tr : TrackerState)
    (now : ℚ) (raw : Bool) (outs : List ℚ) (nc : ℕ) :
    (bc = true → (isOnline w tr now raw).ret = false →
      (hubTick bc w tr now raw outs nc).1 = ⟨[], true⟩) ∧
    (bc = false ∨ (isOnline w tr now raw).ret = true →
      (hubTick bc w tr now raw outs nc).1
        = ⟨(List.range outs.length).map HubEvent.zoneStep
            ++ (List.range nc).map HubEvent.circuitStep
            ++ [HubEvent.publishOutput (hubMaxOutput outs)], false⟩) ∧
    0 ≤ hubMaxOutput outs ∧
    (∀ x ∈ outs, x ≤ hubMaxOutput outs) ∧
    (hubMaxOutput outs = 0 ∨ hubMaxOutput outs ∈ outs) := by
  obtain ⟨h1, h2, h3⟩ := hubMaxOutput_spec outs
  refine ⟨?_, ?_, h1, h2, h3⟩
  · intro hbc hret
    simp [hubTick, hbc, hret]
  · intro hor
    rcases hor with hbc | hret
    · simp [hubTick, hbc]
    · by_cases hbc : bc = true
      · simp [hubTick, hbc, hret]
      · simp only [Bool.not_eq_true] at hbc
        simp [hubTick, hbc]

/-- C9: the sticky control-fault boundary shared by
`Zone.control_temperature` and `Hub._async_control_heating` (the
boundary is a total function of the tick outcome, so no exception
passes it): a tick writes the indicator only when its outcome differs
from the indicator — set on fault onset when previously off, cleared on
the first exception-free tick after a fault, nothing otherwise — and
over any sequence of tick outcomes the indicator ends equal to the last
outcome with exactly the transition writes performed. -/
theorem c9_sticky_fault_boundary (raises faultOn : Bool) (ticks : List Bool) :
    (stickyFaultTick raises faultOn).1 = raises ∧
    (stickyFaultTick raises faultOn).2
      = (if raises = faultOn then [] else [raises]) ∧
    faultRun ticks = ⟨ticks.getLastD false, transitionWrites false ticks⟩ := by
  refine ⟨?_, ?_, ?_⟩
  · cases raises <;> cases faultOn <;> rfl
  · cases raises <;> cases faultOn <;> rfl
  · have := faultFold_writes ticks ⟨false, []⟩
    simpa [faultRun] using this

/-- C10: circuit aggregation tests the current reading for Python
truthiness, not presence: replacing every reading of exactly 0 by no
reading leaves the aggregated current temperature unchanged, and a
circuit whose zones all read 0 or nothing displays no current
temperature. -/
theorem c10_zero_reading_like_missing (zones zs : List ZoneAgg)
    (h : ∀ z ∈ zs, z.cur = none ∨ z.cur = some 0) :
    circuitCur zones
      = circuitCur (zones.map fun z =>
          { z with cur := match z.cur with
              | some v => if v = 0 then none else some v
              | none => none }) ∧
    circuitCur zs = none := by
  constructor
  · rw [circuitCur_eq_listMin, circuitCur_eq_listMin]
    congr 1
    induction zones with
    | nil => rfl
    | cons z rest ih =>
      rcases hz : z.cur with _ | v
      · simpa [truthyCurs, hz] using ih
      · by_cases hv : v = 0
        · simpa [truthyCurs, hz, hv] using ih
        · simpa [truthyCurs, hz, hv] using ih
  · rw [circuitCur_eq_listMin]
    have ht : truthyCurs zs = [] := by
      rw [truthyCurs, List.filterMap_eq_nil_iff]
      intro z hz
      rcases h z hz with hc | hc <;> simp [hc]
    rw [ht]
    rfl

/-- C10 witness: two zones, one reading exactly 0 and one with no
reading, display no circuit current temperature. -/
theorem c10_zero_reading_like_missing_witness :
    circuitCur [⟨some 0, none, none, none, 0⟩, ⟨none, none, none, none, 0⟩]
      = none :=
  (c10_zero_reading_like_missing []
    [⟨some 0, none, none, none, 0⟩, ⟨none, none, none, none, 0⟩]
    (by intro z hz; fin_cases hz <;> simp)).2

end ClimateManager
